import Mathlib

/-!
Shallow embedding of pyGSM's `GsmModem` protocol engine
(`src/pygsm/gsmmodem.py`) and proofs about the specification's claims.

Python byte-strings are modelled as `List Char`; device traffic is modelled
as the list of lines the device produces for each command exchange.  Python
exceptions are modelled with `Except` over an explicit error type.
-/

/-- Decidable equality for `Except`, so claim witnesses can be checked by
`decide`. -/
instance {ε α : Type} [DecidableEq ε] [DecidableEq α] :
    DecidableEq (Except ε α) := fun x y =>
  match x, y with
  | .ok a, .ok b =>
    if h : a = b then isTrue (by rw [h]) else isFalse (by simp [h])
  | .error a, .error b =>
    if h : a = b then isTrue (by rw [h]) else isFalse (by simp [h])
  | .ok _, .error _ => isFalse (by simp)
  | .error _, .ok _ => isFalse (by simp)

namespace PyGsm

/-- A Python (byte) string, modelled as a list of characters. -/
abbrev Str := List Char

/-- Coerce a Lean string literal to the embedding's string type. -/
def str (s : String) : Str := s.toList

/-- The characters removed by Python's `str.strip()`:
space, tab, newline, carriage return, vertical tab, form feed. -/
def isPySpace (c : Char) : Bool :=
  c = ' ' ∨ c = '\t' ∨ c = '\n' ∨ c = '\r' ∨ c = Char.ofNat 11 ∨ c = Char.ofNat 12

/-- Python's `str.strip()`: drop leading and trailing whitespace. -/
def strip (s : Str) : Str :=
  ((s.dropWhile isPySpace).reverse.dropWhile isPySpace).reverse

/-- ASCII decimal digit test (regex `\d`). -/
def isDigitC (c : Char) : Bool := '0' ≤ c ∧ c ≤ '9'

/-- Numeric value of one ASCII digit. -/
def dval (c : Char) : Nat := c.toNat - 48

/-- Value of a decimal digit string, as Python's `int` on an all-digit string. -/
def digitsVal (d : Str) : Nat := d.foldl (fun a c => a * 10 + dval c) 0

/-- Modelled from the spec: the error taxonomy of the (absent) `errors.py`
module, §7 of the spec: `ModemError{category: CMS|CME|uncoded, code: optional}`
(`errors.GsmModemError`) and the read-timeout error carrying partial data
(`errors.GsmReadTimeoutError`). -/
inductive GsmError where
  | modemError (category : Option Str) (code : Option Nat)
  | readTimeout (pending : Str)
  deriving DecidableEq

/-- A Python-level exception as observed by callers: a GSM error, or one of
the built-in exceptions the buggy paths can raise (`UnboundLocalError` from
`command`'s fall-through, `IndexError`/`AttributeError`/`TypeError` from
out-of-range indexing, `None.groups()` and `len(None)`). -/
inductive PyError where
  | gsm (e : GsmError)
  | unboundLocal
  | indexError
  | attributeError
  | typeError
  deriving DecidableEq

/-- The coded-error pattern of `GsmModem._wait`:
`re.match(r"^\+(CM[ES]) ERROR: (\d+)$", buf)`; returns the category
(`CME`/`CMS`) and the numeric code on a match. -/
def cmErrorMatch (l : Str) : Option (Str × Nat) :=
  match l with
  | '+' :: 'C' :: 'M' :: t :: rest =>
    if (t = 'E' ∨ t = 'S') ∧ rest.take 8 = str " ERROR: " then
      let d := rest.drop 8
      if d ≠ [] ∧ d.all isDigitC then some (['C', 'M', t], digitsVal d) else none
    else none
  | _ => none

/-- A stripped line that terminates none of `_wait`'s checks: it is neither
`OK`, a coded `+CM[ES] ERROR: n` line, `ERROR`, nor `COMMAND NOT SUPPORT`. -/
def nonTerminal (l : Str) : Prop :=
  l ≠ str "OK" ∧ cmErrorMatch l = none ∧ l ≠ str "ERROR" ∧
    l ≠ str "COMMAND NOT SUPPORT"

/-- Model of `GsmModem._wait`: read device lines one at a time, stripping each and
appending it to the buffer, until a response terminator is hit.  `OK` returns
the accumulated buffer (terminator included); coded errors, `ERROR` and
`COMMAND NOT SUPPORT` raise `GsmModemError`.  An exhausted device models
`_read` hitting its timeout, which raises `GsmReadTimeoutError`. -/
def waitAux (acc : List Str) : List Str → Except GsmError (List Str)
  | [] => .error (.readTimeout [])
  | l :: rest =>
    let buf := strip l
    let acc' := acc ++ [buf]
    if buf = str "OK" then .ok acc'
    else
      match cmErrorMatch buf with
      | some (ty, code) => .error (.modemError (some ty) (some code))
      | none =>
        if buf = str "ERROR" then .error (.modemError none none)
        else if buf = str "COMMAND NOT SUPPORT" then .error (.modemError none none)
        else waitAux acc' rest

/-- Model of `GsmModem._wait` run on the device's lines for one command exchange. -/
def waitLines (ls : List Str) : Except GsmError (List Str) := waitAux [] ls

/-- The exit taken by `command`'s retry loop (`while retries < self.max_retries`):
either an attempt's `_wait` returned lines (`break`), an error was swallowed
(`return None`, when `raise_errors` is false), an error propagated, or the
loop exhausted its iterations with the local `lines` never assigned —
Python then raises `UnboundLocalError` at the following `lines[0]`. -/
inductive LoopExit where
  | got (lines : List Str) (attempts : Nat)
  | swallowed (attempts : Nat)
  | raised (e : GsmError) (attempts : Nat)
  | unbound (attempts : Nat)
  deriving DecidableEq

/-- Model of `getattr(err, "code", None)`: the code carried by a coded modem error. -/
def errCode : GsmError → Option Nat
  | .modemError _ c => c
  | .readTimeout _ => none

/-- The retry loop of `GsmModem.command`.  `dev` lists the device's response
lines for each successive write attempt; `used` counts writes so far; the
last argument is the remaining loop iterations (`max_retries - retries`).
Each coded-515 failure sleeps `retry_delay` and retries; any other error is
propagated or (with `raise_errors` false) swallowed as `None`. -/
def cmdLoop (raiseErrors : Bool) : List (List Str) → Nat → Nat → LoopExit
  | _, used, 0 => .unbound used
  | dev, used, Nat.succ rem =>
    match waitLines (dev.headD []) with
    | .ok lines => .got lines (used + 1)
    | .error e =>
      if errCode e = some 515 then cmdLoop raiseErrors dev.tail (used + 1) rem
      else if raiseErrors then .raised e (used + 1)
      else .swallowed (used + 1)

/-! ### The `+CMT:` header pattern

`GsmModem._parse_incoming_sms` matches CMT header lines with
`re.match(r'^\+CMT: "(.+?)",.*?,"(.+?)".*?$', line)`.  The functions below
implement exactly that pattern with lazy (shortest-first) quantifier
semantics and full backtracking; `.` matches any character except `'\n'`,
and `$` tolerates one trailing `'\n'`. -/

/-- Holds when the string contains no newline (what `.*` can span). -/
def noNL (s : Str) : Bool := s.all (fun c => c ≠ '\n')

/-- Drop a single trailing newline, if present (Python's `$` matches before it). -/
def dropTrailNL (s : Str) : Str :=
  match s.reverse with
  | '\n' :: r => r.reverse
  | _ => s

/-- Whether `.*?$` can consume the rest of the line. -/
def dollarOk (s : Str) : Bool := noNL (dropTrailNL s)

/-- Match `(.+?)"` followed by `.*?$`: find the shortest nonempty
newline-free group closed by `"` whose remainder satisfies `dollarOk`.
`acc` holds the group read so far, reversed. -/
def findG2 (acc : Str) : Str → Option Str
  | [] => none
  | c :: r =>
    if c = '"' ∧ acc ≠ [] ∧ dollarOk r then some acc.reverse
    else if c = '\n' then none
    else findG2 (c :: acc) r

/-- Match `.*?,"` followed by the second group: lazily skip characters until
a `,"` whose continuation matches, backtracking on inner failure. -/
def findMid : Str → Option Str
  | [] => none
  | c :: r =>
    (match c, r with
     | ',', '"' :: s2 => findG2 [] s2
     | _, _ => none).orElse
      (fun _ => if c = '\n' then none else findMid r)

/-- Match `(.+?)",` followed by the middle part: find the shortest nonempty
group-1 closed by `",` whose continuation matches, backtracking otherwise. -/
def findG1 (acc : Str) : Str → Option (Str × Str)
  | [] => none
  | c :: r =>
    (if c = '"' ∧ acc ≠ [] then
       match r with
       | ',' :: r2 => (findMid r2).map (fun g2 => (acc.reverse, g2))
       | _ => none
     else none).orElse
      (fun _ => if c = '\n' then none else findG1 (c :: acc) r)

/-- The CMT header regex: on a match, return (sender, timestamp). -/
def cmtMatch (line : Str) : Option (Str × Str) :=
  if line.take 7 = str "+CMT: \"" then findG1 [] (line.drop 7) else none

/-! ### Timestamp parsing (`GsmModem._parse_incoming_timestamp`)

`time.strptime(timestamp, "%y/%m/%d,%H:%M:%S")` is modelled with CPython's
`TimeRE` field patterns (`%y` = `\d\d`, `%m` = `1[0-2]|0[1-9]|[1-9]`, etc.),
including alternation backtracking and the requirement that the whole string
be consumed; `datetime.datetime(*struct[:6])` then validates the fields
(day within month, second ≤ 59) and any `ValueError` yields `None`. -/

/-- Try alternatives in order, committing to the first whose continuation
succeeds (regex alternation with backtracking). -/
def tryAlts {α β : Type} : List α → (α → Option β) → Option β
  | [], _ => none
  | x :: xs, k =>
    match k x with
    | some b => some b
    | none => tryAlts xs k

/-- Match one literal character. -/
def pLit (c : Char) : Str → Option Str
  | c' :: rest => if c' = c then some rest else none
  | [] => none

/-- Field `%y`: exactly two digits. -/
def altY : Str → List (Nat × Str)
  | a :: b :: rest =>
    if isDigitC a ∧ isDigitC b then [(dval a * 10 + dval b, rest)] else []
  | _ => []

/-- Field `%m`: `1[0-2]|0[1-9]|[1-9]`, candidates in regex order. -/
def altM (s : Str) : List (Nat × Str) :=
  (match s with
   | a :: b :: rest =>
     (if a = '1' ∧ '0' ≤ b ∧ b ≤ '2' then [(10 + dval b, rest)] else []) ++
     (if a = '0' ∧ '1' ≤ b ∧ b ≤ '9' then [(dval b, rest)] else [])
   | _ => []) ++
  (match s with
   | a :: rest => if '1' ≤ a ∧ a ≤ '9' then [(dval a, rest)] else []
   | [] => [])

/-- Field `%d`: `3[01]|[12]\d|0[1-9]|[1-9]`, candidates in regex order. -/
def altD (s : Str) : List (Nat × Str) :=
  (match s with
   | a :: b :: rest =>
     (if a = '3' ∧ ('0' ≤ b ∧ b ≤ '1') then [(30 + dval b, rest)] else []) ++
     (if (a = '1' ∨ a = '2') ∧ isDigitC b then [(dval a * 10 + dval b, rest)] else []) ++
     (if a = '0' ∧ '1' ≤ b ∧ b ≤ '9' then [(dval b, rest)] else [])
   | _ => []) ++
  (match s with
   | a :: rest => if '1' ≤ a ∧ a ≤ '9' then [(dval a, rest)] else []
   | [] => [])

/-- Field `%H`: `2[0-3]|[0-1]\d|\d`, candidates in regex order. -/
def altH (s : Str) : List (Nat × Str) :=
  (match s with
   | a :: b :: rest =>
     (if a = '2' ∧ ('0' ≤ b ∧ b ≤ '3') then [(20 + dval b, rest)] else []) ++
     (if (a = '0' ∨ a = '1') ∧ isDigitC b then [(dval a * 10 + dval b, rest)] else [])
   | _ => []) ++
  (match s with
   | a :: rest => if isDigitC a then [(dval a, rest)] else []
   | [] => [])

/-- Field `%M`: `[0-5]\d|\d`, candidates in regex order. -/
def altMin (s : Str) : List (Nat × Str) :=
  (match s with
   | a :: b :: rest =>
     if '0' ≤ a ∧ a ≤ '5' ∧ isDigitC b then [(dval a * 10 + dval b, rest)] else []
   | _ => []) ++
  (match s with
   | a :: rest => if isDigitC a then [(dval a, rest)] else []
   | [] => [])

/-- Field `%S`: `6[0-1]|[0-5]\d|\d` (leap seconds allowed), in regex order. -/
def altS (s : Str) : List (Nat × Str) :=
  (match s with
   | a :: b :: rest =>
     (if a = '6' ∧ ('0' ≤ b ∧ b ≤ '1') then [(60 + dval b, rest)] else []) ++
     (if '0' ≤ a ∧ a ≤ '5' ∧ isDigitC b then [(dval a * 10 + dval b, rest)] else [])
   | _ => []) ++
  (match s with
   | a :: rest => if isDigitC a then [(dval a, rest)] else []
   | [] => [])

/-- Model of `time.strptime` on the fixed format `%y/%m/%d,%H:%M:%S`: the fields in
sequence, requiring the entire string to be consumed. -/
def strptimeSCTS (s : Str) : Option (Nat × Nat × Nat × Nat × Nat × Nat) :=
  tryAlts (altY s) fun (y, s1) =>
  (pLit '/' s1).bind fun s2 =>
  tryAlts (altM s2) fun (mo, s3) =>
  (pLit '/' s3).bind fun s4 =>
  tryAlts (altD s4) fun (d, s5) =>
  (pLit ',' s5).bind fun s6 =>
  tryAlts (altH s6) fun (h, s7) =>
  (pLit ':' s7).bind fun s8 =>
  tryAlts (altMin s8) fun (mi, s9) =>
  (pLit ':' s9).bind fun s10 =>
  tryAlts (altS s10) fun (sec, s11) =>
  if s11 = [] then some (y, mo, d, h, mi, sec) else none

/-- The `%y` pivot: two-digit years `00`–`68` map to `2000+`, others to `1900+`. -/
def fullYear (yy : Nat) : Nat := if yy ≤ 68 then 2000 + yy else 1900 + yy

/-- Gregorian leap-year test. -/
def isLeap (y : Nat) : Bool := (y % 4 = 0 ∧ y % 100 ≠ 0) ∨ y % 400 = 0

/-- Days in a month of a given year. -/
def daysInMonth (y m : Nat) : Nat :=
  if m = 2 then (if isLeap y then 29 else 28)
  else if m = 4 ∨ m = 6 ∨ m = 9 ∨ m = 11 then 30
  else 31

/-- Days from 1970-01-01 to the given civil date (standard civil-calendar
day-count algorithm); all intermediate quotients are nonnegative here. -/
def daysFromCivil (y m d : Nat) : Int :=
  let y' : Int := (y : Int) - (if m ≤ 2 then 1 else 0)
  let era : Int := y' / 400
  let yoe : Int := y' - era * 400
  let mp : Int := ((m : Int) + 9) % 12
  let doy : Int := (153 * mp + 2) / 5 + (d : Int) - 1
  let doe : Int := yoe * 365 + yoe / 4 - yoe / 100 + doy
  era * 146097 + doe - 719468

/-- A `datetime.datetime` value, represented as seconds since the epoch of
its (timezone-less) local calendar field values. -/
def sctsSeconds (y mo d h mi s : Nat) : Int :=
  daysFromCivil y mo d * 86400 + (h : Int) * 3600 + (mi : Int) * 60 + (s : Int)

/-- Model of `time.strptime` followed by `datetime.datetime(*time_struct[:6])`:
`None` when the string does not match the format or when `datetime`
rejects the fields (day out of range for the month, or a leap second). -/
def strptimeDT (s : Str) : Option Int :=
  (strptimeSCTS s).bind fun (yy, mo, d, h, mi, sec) =>
    let y := fullYear yy
    if d ≤ daysInMonth y mo ∧ sec ≤ 59 then some (sctsSeconds y mo d h mi sec)
    else none

/-- Model of `re.search(r"\-(\d+)$", timestamp)`: when the timestamp ends in `-`
followed by one or more digits, return the prefix with that suffix removed
(the result of `re.sub`) and the digits' value. -/
def tzSplit (ts : Str) : Option (Str × Nat) :=
  let rd := ts.reverse.takeWhile isDigitC
  if rd = [] then none
  else
    match ts.reverse.drop rd.length with
    | '-' :: restRev => some (restRev.reverse, digitsVal rd.reverse)
    | _ => none

/-- Model of `GsmModem._parse_incoming_timestamp`.  Note the source computes
`int(m.group(0)) * 15` — group 0 *includes* the minus sign, so the offset in
minutes is `-(digits) * 15`; the parsed datetime then has that (negative)
offset subtracted (`dt - tz_offset`).  Any parse failure yields `none`. -/
def parse_incoming_timestamp (ts : Str) : Option Int :=
  match tzSplit ts with
  | some (rest, dv) =>
    (strptimeDT rest).map (fun dt => dt - (-(dv : Int)) * 15 * 60)
  | none => strptimeDT ts

/-! ### Encoding guess (`GsmModem._add_incoming`)

Before an `IncomingMessage` is created, a text whose length is a positive
multiple of four and that consists solely of uppercase hex digits is treated
as hex-encoded UTF-16: a `feff` byte-order mark is prepended unless the text
already starts with one, then the text is hex- and UTF-16-decoded.  A decode
failure keeps the text — note that the BOM prepend has already happened at
that point, exactly as in the source's `try` block. -/

/-- The character class of `re.match('^[0-9A-F]+$', text)`. -/
def isUpperHex (c : Char) : Bool := isDigitC c ∨ ('A' ≤ c ∧ c ≤ 'F')

/-- The guard of the encoding guess: positive multiple-of-4 length and all
uppercase hex digits. -/
def hexLooking (t : Str) : Bool :=
  t.length % 4 = 0 ∧ t.length ≠ 0 ∧ t.all isUpperHex

/-- Model of `str.lower()` on one character. -/
def lowerC (c : Char) : Char :=
  if 'A' ≤ c ∧ c ≤ 'Z' then Char.ofNat (c.toNat + 32) else c

/-- Value of a hex digit (either case); other characters cannot occur here. -/
def hexDigitVal (c : Char) : Nat :=
  if isDigitC c then c.toNat - 48
  else if 'A' ≤ c ∧ c ≤ 'F' then c.toNat - 55
  else if 'a' ≤ c ∧ c ≤ 'f' then c.toNat - 87
  else 0

/-- Model of `text.decode("hex")`: pairs of hex digits to byte values. -/
def hexDecode : Str → List Nat
  | a :: b :: rest => (hexDigitVal a * 16 + hexDigitVal b) :: hexDecode rest
  | _ => []

/-- Group bytes into 16-bit code units with the given endianness; `none` on
a trailing odd byte (`UnicodeDecodeError`). -/
def utf16Units (le : Bool) : List Nat → Option (List Nat)
  | [] => some []
  | a :: b :: rest =>
    (utf16Units le rest).map
      (fun us => (if le then b * 256 + a else a * 256 + b) :: us)
  | _ => none

/-- Combine surrogate pairs into code points; `none` on a lone surrogate
(`UnicodeDecodeError` under the strict default error handler). -/
def utf16Combine : List Nat → Option (List Nat)
  | [] => some []
  | u :: rest =>
    if 0xD800 ≤ u ∧ u ≤ 0xDBFF then
      match rest with
      | v :: rest2 =>
        if 0xDC00 ≤ v ∧ v ≤ 0xDFFF then
          (utf16Combine rest2).map
            (fun cs => (0x10000 + (u - 0xD800) * 0x400 + (v - 0xDC00)) :: cs)
        else none
      | [] => none
    else if 0xDC00 ≤ u ∧ u ≤ 0xDFFF then none
    else (utf16Combine rest).map (fun cs => u :: cs)

/-- Model of `bytes.decode("utf-16")` for byte strings that begin with a byte-order
mark — every call site here guarantees one, so the no-BOM case (which CPython
would decode in native order) is folded into the failure case. -/
def utf16Decode (bs : List Nat) : Option Str :=
  match bs with
  | 0xFF :: 0xFE :: rest =>
    ((utf16Units true rest).bind utf16Combine).map (fun cs => cs.map Char.ofNat)
  | 0xFE :: 0xFF :: rest =>
    ((utf16Units false rest).bind utf16Combine).map (fun cs => cs.map Char.ofNat)
  | _ => none

/-- The whole encoding guess of `GsmModem._add_incoming`. -/
def decodeGuess (text : Str) : Str :=
  if hexLooking text then
    let bom := (text.take 4).map lowerC
    let text1 := if bom = str "fffe" ∨ bom = str "feff" then text
                 else str "feff" ++ text
    match utf16Decode (hexDecode text1) with
    | some s => s
    | none => text1
  else text

/-! ### Multipart state and the incoming queue -/

/-- Model of `GsmModem.multipart`: the pending-multipart map from sender to the
fragments received so far, in arrival order. -/
abbrev Multipart := List (Str × List Str)

/-- Dictionary lookup (`self.multipart[sender]` / `sender in self.multipart`). -/
def mpLookup (mp : Multipart) (k : Str) : Option (List Str) :=
  match mp with
  | [] => none
  | (k', v) :: rest => if k' = k then some v else mpLookup rest k

/-- Dictionary assignment `self.multipart[sender] = v`. -/
def mpInsert (mp : Multipart) (k : Str) (v : List Str) : Multipart :=
  match mp with
  | [] => [(k, v)]
  | (k', v') :: rest =>
    if k' = k then (k, v) :: rest else (k', v') :: mpInsert rest k v

/-- Dictionary deletion `del self.multipart[sender]`. -/
def mpErase (mp : Multipart) (k : Str) : Multipart :=
  match mp with
  | [] => []
  | (k', v') :: rest =>
    if k' = k then mpErase rest k else (k', v') :: mpErase rest k

/-- Modelled from the spec: the (absent) `message.py` module's
`IncomingMessage` value, §3 of the spec — sender, optional parsed local
timestamp, decoded text. -/
structure Msg where
  sender : Str
  timeSent : Option Int
  text : Str
  deriving DecidableEq

/-- Model of `GsmModem._add_incoming`: run the encoding guess and the timestamp
parser, then append the resulting `IncomingMessage` to the incoming queue. -/
def add_incoming (q : List Msg) (timestamp sender text : Str) : List Msg :=
  q ++ [{ sender := sender, timeSent := parse_incoming_timestamp timestamp,
          text := decodeGuess text }]

/-! ### `GsmModem._parse_incoming_sms`

The scan walks the line list; non-`+CMT:` lines are copied to the output.
A line starting with `+CMT:` is matched against the header pattern — on a
failed match the source executes `n += 1` followed by the bare expression
`next` (a Ruby-ism; Python's `continue` was intended), so control *falls
through* to `m.groups()` with `m = None` and raises `AttributeError`.  On a
match, the following line is the message body (`lines[n+1]` raises
`IndexError` when absent); `AT+CNMA` is acknowledged (a device interaction
whose errors the source swallows — it does not affect the parser state and
is not modelled further); then the multipart marker logic runs, and both
lines are consumed. -/
def parse_incoming_sms (mp : Multipart) (q : List Msg) :
    List Str → Except PyError (List Str × Multipart × List Msg)
  | [] => .ok ([], mp, q)
  | l :: rest =>
    if l.take 5 ≠ str "+CMT:" then
      match parse_incoming_sms mp q rest with
      | .ok (out, mp', q') => .ok (l :: out, mp', q')
      | .error e => .error e
    else
      match cmtMatch l with
      | none => .error .attributeError
      | some (sender, timestamp) =>
        match rest with
        | [] => .error .indexError
        | body :: rest2 =>
          let text := strip body
          match text with
          | [] => .error .indexError
          | c0 :: ctail =>
            if c0.toNat = 130 then
              match ctail with
              | [] => .error .indexError
              | c1 :: _ =>
                if c1 = '@' then
                  let part := text.drop 7
                  let pending := (mpLookup mp sender).getD [] ++ [part]
                  let mp1 := mpInsert mp sender pending
                  match text.get? 5 with
                  | none => .error .indexError
                  | some c5 =>
                    if c5.toNat ≠ 173 then
                      parse_incoming_sms mp1 q rest2
                    else
                      parse_incoming_sms (mpErase mp1 sender)
                        (add_incoming q timestamp sender pending.flatten) rest2
                else
                  parse_incoming_sms mp (add_incoming q timestamp sender text) rest2
            else
              parse_incoming_sms mp (add_incoming q timestamp sender text) rest2

/-! ### `GsmModem.command` and the query helpers -/

/-- The keep-condition of `command`'s line filter (the source's list
comprehension): `line != "" or line[0:6] == "+WIND:" or line[0:6] == "+CREG:"
or line[0:7] == "+CGRED:"`.  (Since the disjunction keeps every nonempty
line, only blank lines are dropped — faithfully reproduced here.) -/
def keepLine (line : Str) : Bool :=
  line ≠ [] ∨ line.take 6 = str "+WIND:" ∨ line.take 6 = str "+CREG:" ∨
    line.take 7 = str "+CGRED:"

/-- Model of `GsmModem.command`: run the retry loop, then — when lines were obtained —
drop the command echo from the head, filter blank lines, and extract bundled
incoming SMS.  A swallowed error returns `None` without post-processing
(`return None` inside the handler).  An exhausted loop raises
`UnboundLocalError` at `lines[0]`, since `lines` was never assigned. -/
def command (cmd : Str) (raise_errors : Bool) (max_retries : Nat)
    (dev : List (List Str)) (mp : Multipart) (q : List Msg) :
    Except PyError (Option (List Str) × Multipart × List Msg) :=
  match cmdLoop raise_errors dev 0 max_retries with
  | .swallowed _ => .ok (none, mp, q)
  | .raised e _ => .error (.gsm e)
  | .unbound _ => .error .unboundLocal
  | .got lines _ =>
    match parse_incoming_sms mp q
        ((if lines.head? = some cmd then lines.tail else lines).filter
          keepLine) with
    | .ok (out, mp', q') => .ok (some out, mp', q')
    | .error e => .error e

/-- Pre-assembled equality decider for `command`'s result type (the search
otherwise exceeds the instance-size limit). -/
instance : DecidableEq (Option (List Str) × Multipart × List Msg) :=
  instDecidableEqProd

/-- Pre-assembled equality decider for `query`'s result type. -/
instance : DecidableEq (Option Str × Multipart × List Msg) :=
  instDecidableEqProd

/-- Pre-assembled equality decider for `parse_incoming_sms`'s result type. -/
instance : DecidableEq (List Str × Multipart × List Msg) :=
  instDecidableEqProd

/-- Model of `GsmModem.query_list`: issue the command with `raise_errors=False`; when
the result is a list whose last entry is `OK`, return the other lines
(optionally filtered by, and stripped of, a 'pfx' string); otherwise return
`None`.  Note `lines[-1]` raises `IndexError` on an empty list, and a `None`
from `command` skips straight to returning `None`. -/
def query_list (cmd : Str) (pfx : Option Str) (dev : List (List Str))
    (mp : Multipart) (q : List Msg) :
    Except PyError (Option (List Str) × Multipart × List Msg) :=
  match command cmd false 10 dev mp q with
  | .error e => .error e
  | .ok (none, mp', q') => .ok (none, mp', q')
  | .ok (some lines, mp', q') =>
    match lines.getLast? with
    | none => .error .indexError
    | some last =>
      if last = str "OK" then
        match pfx with
        | some p =>
          .ok (some (lines.dropLast.filterMap (fun line =>
            if line.take p.length = p then some (strip (line.drop p.length))
            else none)), mp', q')
        | none => .ok (some lines.dropLast, mp', q')
      else .ok (none, mp', q')

/-- Model of `GsmModem.query`: `lines = self.query_list(cmd, prefix)` followed by
`return lines[0] if len(lines) == 1 else None`.  When `query_list` returned
`None` — which it does whenever the command failed — `len(None)` raises
`TypeError`. -/
def query (cmd : Str) (pfx : Option Str) (dev : List (List Str))
    (mp : Multipart) (q : List Msg) :
    Except PyError (Option Str × Multipart × List Msg) :=
  match query_list cmd pfx dev mp q with
  | .error e => .error e
  | .ok (none, _, _) => .error .typeError
  | .ok (some ls, mp', q') =>
    .ok ((if ls.length = 1 then ls.head? else none), mp', q')

/-! ### `GsmModem.signal_strength` -/

/-- The tri-state result of `signal_strength`: an integer strength, `False`
("not known or not detectable", from `+CSQ: 99,...`), or `None` (response
unparseable). -/
inductive Signal where
  | strength (n : Nat)
  | unknown
  | err
  deriving DecidableEq

/-- Model of `re.match(r"^\+CSQ: (\d+),", data)`: the digits after `+CSQ: ` when they
are followed by a comma. -/
def csqMatch (data : Str) : Option Nat :=
  if data.take 6 = str "+CSQ: " then
    let ds := (data.drop 6).takeWhile isDigitC
    if ds ≠ [] ∧ (data.drop 6).get? ds.length = some ',' then
      some (digitsVal ds)
    else none
  else none

/-- The response mapping of `signal_strength`: a matched value below 99 is
the strength, 99 and above map to `False` (unknown), and an unparseable or
absent response maps to `None` (error). -/
def signalFromData : Option Str → Signal
  | some data =>
    match csqMatch data with
    | some csq => if csq < 99 then .strength csq else .unknown
    | none => .err
  | none => .err

/-- Model of `GsmModem.signal_strength`: `AT+CSQ` through `query`, then the mapping. -/
def signal_strength (dev : List (List Str)) (mp : Multipart) (q : List Msg) :
    Except PyError Signal :=
  match query (str "AT+CSQ") none dev mp q with
  | .error e => .error e
  | .ok (data, _, _) => .ok (signalFromData data)

/-! ### `GsmModem.disconnect` -/

/-- The transport handle: a pySerial-like device with an open/closed state. -/
structure Device where
  devOpen : Bool
  deriving DecidableEq

/-- Model of `GsmModem.disconnect`: the source guards the close with
`if hasattr(self, "device") and (self.device is None):` — the test is
inverted (`is None` where `is not None` was meant), so with a present device
the guard is false and `False` is returned with the device untouched, while
with `device = None` the guard is true and `self.device.isOpen()` raises
`AttributeError` on `None`. -/
def disconnect : Option Device → Except PyError (Option Device × Bool)
  | none => .error .attributeError
  | some d => .ok (some d, false)

/-! ### `GsmModem.send_sms` (ASCII path)

The interactive exchange after `str(text)` succeeds: write
`AT+CMGS="<recipient>"` with a one-second read timeout, then dispatch on the
outcome.  Each `command` invocation is abstracted as one transport write plus
a summary outcome; the function returns the ordered list of writes and the
Python return value (`True` on success, `None` on the contained-failure
paths; every modelled exception is an `Exception` subclass and is caught by
the outer handler, which writes `chr(27)` before returning `None`). -/

/-- The outcome of one `command` invocation inside `send_sms`. -/
inductive StepResult where
  | ok (lines : List Str)
  | timeout (pending : Str)
  | gsmErr (e : GsmError)
  | pyErr (e : PyError)
  deriving DecidableEq

/-- Model of `GsmModem.send_sms` on ASCII text, as a function of the outcomes of its
two device interactions.  Returns (transport writes in order, return value). -/
def send_sms (recipient text : Str) (cmgs body : StepResult) :
    List Str × Option Bool :=
  let w1 := str "AT+CMGS=\"" ++ recipient ++ str "\"" ++ ['\r']
  match cmgs with
  | .ok _ => ([w1], none)
  | .gsmErr _ => ([w1, [Char.ofNat 27]], none)
  | .pyErr _ => ([w1, [Char.ofNat 27]], none)
  | .timeout pending =>
    match pending with
    | [] => ([w1, [Char.ofNat 27]], none)
    | c :: _ =>
      if c = '>' then
        let w2 := text ++ [Char.ofNat 26]
        match body with
        | .ok _ => ([w1, w2], some true)
        | _ => ([w1, w2, [Char.ofNat 27]], none)
      else ([w1, [Char.ofNat 27]], none)

/-- Whether an exception is raised at some point during the interactive
exchange (after the initiation command is written): the initiation command
errors, or times out with no pending data (`pending_data[0]` raises
`IndexError`) or with pending data not starting with the prompt (re-raise),
or the prompt is answered and the body command errors. -/
def raisesDuringExchange (cmgs body : StepResult) : Bool :=
  match cmgs with
  | .ok _ => false
  | .gsmErr _ => true
  | .pyErr _ => true
  | .timeout pending =>
    match pending with
    | [] => true
    | c :: _ =>
      if c = '>' then
        match body with
        | .ok _ => false
        | _ => true
      else true

/-! ## Theorems about the claims -/

/-- C2: the spec claims a command that always fails with coded error 515 is
attempted at most `max_retries + 1` times and then fails with
`ModemError(code=515)`.  The loop `while retries < self.max_retries` in fact
performs exactly `max_retries` attempts (10 with the class default) — one
initial attempt plus only `max_retries - 1` retries, each preceded by a
`retry_delay` sleep — and then falls out of the loop with the local variable
`lines` never assigned, so `lines[0]` raises `UnboundLocalError` instead of
a `ModemError`. -/
theorem command_retry_exhaustion_unbound :
    cmdLoop true (List.replicate 10 [str "+CMS ERROR: 515"]) 0 10 =
      .unbound 10 ∧
    command (str "AT+CMGF=1") true 10
      (List.replicate 10 [str "+CMS ERROR: 515"]) [] [] =
      .error .unboundLocal := by decide

/-- C6: the spec claims an unparseable `+CMT:` line is skipped without
aborting the scan.  In the source the bare expression `next` (Ruby's
`continue`) is a no-op, so control falls through to `m.groups()` with
`m = None` and the scan raises `AttributeError` on the very first
unparseable `+CMT:` line. -/
theorem unparseable_cmt_raises_attribute_error :
    parse_incoming_sms [] [] [str "+CMT: x"] = .error .attributeError := by
  decide

/-- C7: the spec claims `query` returns "none" and never raises when the
underlying command fails.  `query_list` returns `None` on failure (despite
its own docstring promising an empty list), so `query`'s `len(lines)` is
`len(None)`, which raises `TypeError` — shown here for a command the device
answers with `ERROR`. -/
theorem query_failure_raises_type_error :
    query (str "AT+CSQ") none [[str "ERROR"]] [] [] = .error .typeError := by
  decide

/-- C8: the spec claims `disconnect` on a present, open transport closes it,
clears the handle and returns `True`.  The guard reads `self.device is None`
where `is not None` was meant, so with a present device (open or not) the
body is skipped and `False` is returned with the device untouched; with no
device the guard holds and `None.isOpen()` raises `AttributeError`. -/
theorem disconnect_open_device_returns_false :
    disconnect (some { devOpen := true }) =
      .ok (some { devOpen := true }, false) ∧
    disconnect none = .error .attributeError := by decide

/-- C1 counterexample: the claim says the lines returned by a successful
`command` never include the terminal `OK` line.  For the command `AT` and a
device that answers just `OK`, the returned list is exactly `["OK"]`, which
contains the terminal `OK`. -/
theorem command_returns_terminal_ok_cex :
    command (str "AT") true 10 [[str "OK"]] [] [] =
      .ok (some [str "OK"], [], []) ∧
    str "OK" ∈ [str "OK"] := by decide

/-- C4 counterexample: the claim says the reassembled message's text is
always the concatenation of the two fragments' payloads.  With payloads
`FFFE` and `0041` the concatenation `FFFE0041` looks like hex-encoded
UTF-16, so `_add_incoming`'s encoding guess decodes it and the emitted
`IncomingMessage` carries the single character `U+4100`, not `FFFE0041`. -/
theorem multipart_hex_decode_cex :
    parse_incoming_sms [] [] [str "+CMT: \"s\",,\"t\"",
        [Char.ofNat 130, '@'] ++ str "xxxxx" ++ str "FFFE"] =
      .ok ([], [(str "s", [str "FFFE"])], []) ∧
    parse_incoming_sms [(str "s", [str "FFFE"])] []
        [str "+CMT: \"s\",,\"t\"",
          [Char.ofNat 130, '@'] ++ str "xxx" ++ [Char.ofNat 173] ++ str "x" ++
            str "0041"] =
      .ok ([], [],
        [{ sender := str "s", timeSent := none,
           text := [Char.ofNat 16640] }]) ∧
    ([Char.ofNat 16640] : Str) ≠ str "FFFE" ++ str "0041" := by decide

/-- C9: `signal_strength` maps the device line `+CSQ: 20,99` to the integer
strength 20 and `+CSQ: 99,99` to the distinct "unknown" value (`False` in
the source); every unparseable or absent response maps to the "error" value
(`None`), and the three outcomes are pairwise distinguishable. -/
theorem signal_strength_tri_state :
    signal_strength [[str "+CSQ: 20,99", str "OK"]] [] [] =
      .ok (.strength 20) ∧
    signal_strength [[str "+CSQ: 99,99", str "OK"]] [] [] = .ok .unknown ∧
    (∀ line, csqMatch line = none → signalFromData (some line) = .err) ∧
    signalFromData none = .err ∧
    Signal.unknown ≠ Signal.err ∧
    (∀ n, Signal.strength n ≠ Signal.unknown ∧ Signal.strength n ≠ .err) := by
  refine ⟨by decide, by decide, ?_, rfl, by decide, ?_⟩
  · intro line h
    simp [signalFromData, h]
  · intro n
    exact ⟨by simp, by simp⟩

/-- C9 witness: the tri-state theorem applied at the concrete unparseable
response `garbage`. -/
theorem signal_strength_tri_state_witness :
    signalFromData (some (str "garbage")) = .err :=
  signal_strength_tri_state.2.2.1 (str "garbage") (by decide)

/-- C3: whenever an exception is raised at any point of the interactive
`send_sms` exchange after the SMS-initiation command has been written, the
abort byte `chr(27)` is the last transport write and `send_sms` returns its
failure result (`None`); no exception path skips the abort write. -/
theorem send_sms_abort_on_exception (recipient text : Str)
    (cmgs body : StepResult) (h : raisesDuringExchange cmgs body = true) :
    (send_sms recipient text cmgs body).1.getLast? = some [Char.ofNat 27] ∧
    (send_sms recipient text cmgs body).2 = none := by
  cases cmgs with
  | ok ls => simp [raisesDuringExchange] at h
  | gsmErr e => exact ⟨rfl, rfl⟩
  | pyErr e => exact ⟨rfl, rfl⟩
  | timeout pending =>
    cases pending with
    | nil => exact ⟨rfl, rfl⟩
    | cons c cs =>
      by_cases hc : c = '>'
      · subst hc
        cases body with
        | ok ls => simp [raisesDuringExchange] at h
        | gsmErr e => simp [send_sms]
        | pyErr e => simp [send_sms]
        | timeout p => simp [send_sms]
      · simp [send_sms, hc]

/-- C3 witness: the abort invariant at a concrete failing exchange (the
initiation command is rejected with an uncoded modem error). -/
theorem send_sms_abort_on_exception_witness :
    (send_sms (str "1234") (str "Test Message")
        (.gsmErr (.modemError none none)) (.ok [])).1.getLast? =
      some [Char.ofNat 27] ∧
    (send_sms (str "1234") (str "Test Message")
        (.gsmErr (.modemError none none)) (.ok [])).2 = none :=
  send_sms_abort_on_exception (str "1234") (str "Test Message")
    (.gsmErr (.modemError none none)) (.ok []) (by decide)

/-- A `takeWhile` application consumes exactly a leading all-true block that is terminated
by a failing element. -/
theorem takeWhile_all_append {p : Char → Bool} :
    ∀ (a : Str) (c : Char) (b : Str), (∀ x ∈ a, p x = true) → p c = false →
      (a ++ c :: b).takeWhile p = a
  | [], c, b, _, hc => by simp [List.takeWhile_cons, hc]
  | x :: a, c, b, ha, hc => by
    have hx : p x = true := ha x (by simp)
    simp only [List.cons_append, List.takeWhile_cons, hx, if_true]
    rw [takeWhile_all_append a c b (fun y hy => ha y (by simp [hy])) hc]

/-- Effect of `re.search(r"\-(\d+)$")` on a timestamp with a dash-digits suffix finds
exactly that suffix. -/
theorem tzSplit_append (s d : Str) (hne : d ≠ [])
    (hd : ∀ c ∈ d, isDigitC c = true) :
    tzSplit (s ++ '-' :: d) = some (s, digitsVal d) := by
  have hrev : (s ++ '-' :: d).reverse = d.reverse ++ '-' :: s.reverse := by
    simp
  have htw : (d.reverse ++ '-' :: s.reverse).takeWhile isDigitC =
      d.reverse :=
    takeWhile_all_append _ _ _ (fun x hx => hd x (by simpa using hx))
      (by decide)
  have hdrop : (d.reverse ++ '-' :: s.reverse).drop d.reverse.length =
      '-' :: s.reverse := List.drop_left _ _
  have hne' : d.reverse ≠ [] := by simpa using hne
  simp only [tzSplit, hrev, htw, hne', if_neg, hdrop]
  simp

/-- C5: the service-center timestamp parser.  (i) The concrete input
`23/06/01,10:00:00-04` parses to the local time 2023-06-01 10:00:00 with the
offset −60 minutes (= `int("-04") * 15`) subtracted from it, i.e. 11:00:00;
(ii) for every timestamp with a `-<digits>` suffix, the suffix is stripped,
the remainder parsed by `strptime`, and `digits × 15` minutes of (negative)
offset applied as a local-time adjustment; (iii)/(iv) any parse failure of
the (possibly stripped) remainder yields `None` rather than an error. -/
theorem parse_incoming_timestamp_spec :
    parse_incoming_timestamp (str "23/06/01,10:00:00-04") =
      some (sctsSeconds 2023 6 1 10 0 0 - (-60) * 60) ∧
    (∀ s d, d ≠ [] → (∀ c ∈ d, isDigitC c = true) →
      parse_incoming_timestamp (s ++ '-' :: d) =
        (strptimeDT s).map
          (fun dt => dt - (-(digitsVal d : Int)) * 15 * 60)) ∧
    (∀ ts rest off, tzSplit ts = some (rest, off) → strptimeDT rest = none →
      parse_incoming_timestamp ts = none) ∧
    (∀ ts, tzSplit ts = none → strptimeDT ts = none →
      parse_incoming_timestamp ts = none) := by
  refine ⟨by decide, ?_, ?_, ?_⟩
  · intro s d hne hd
    unfold parse_incoming_timestamp
    rw [tzSplit_append s d hne hd]
  · intro ts rest off h1 h2
    unfold parse_incoming_timestamp
    rw [h1]
    simp [h2]
  · intro ts h1 h2
    unfold parse_incoming_timestamp
    rw [h1]
    simpa using h2

/-- C5 witness: the suffix-stripping clause applied at the concrete
timestamp `23/06/01,10:00:00` with suffix digits `04`. -/
theorem parse_incoming_timestamp_spec_witness :
    parse_incoming_timestamp (str "23/06/01,10:00:00" ++ '-' :: str "04") =
      (strptimeDT (str "23/06/01,10:00:00")).map
        (fun dt => dt - (-(digitsVal (str "04") : Int)) * 15 * 60) :=
  parse_incoming_timestamp_spec.2.1 (str "23/06/01,10:00:00") (str "04")
    (by decide) (by decide)

/-- A line the CMT header pattern matches necessarily starts with `+CMT:`,
so the scan's prefix test selects it. -/
theorem cmtMatch_take5 {l : Str} {p : Str × Str} (h : cmtMatch l = some p) :
    l.take 5 = str "+CMT:" := by
  have h7 : l.take 7 = str "+CMT: \"" := by
    by_contra hne
    simp [cmtMatch, hne] at h
  have h57 : l.take 5 = (l.take 7).take 5 := by
    rw [List.take_take]
    norm_num
  rw [h57, h7]
  decide

/-- Lines that do not start with `+CMT:` are passed over by the scan, so an
error arising on the remaining lines propagates unchanged. -/
theorem parse_error_prepend {mp : Multipart} {q : List Msg} {e : PyError} :
    ∀ (pre L : List Str), (∀ x ∈ pre, x.take 5 ≠ str "+CMT:") →
      parse_incoming_sms mp q L = .error e →
      parse_incoming_sms mp q (pre ++ L) = .error e
  | [], L, _, h => by simpa using h
  | x :: pre, L, hpre, h => by
    have hx : x.take 5 ≠ str "+CMT:" := hpre x (by simp)
    have ih := parse_error_prepend pre L (fun y hy => hpre y (by simp [hy])) h
    rw [List.cons_append]
    simp only [parse_incoming_sms]
    rw [if_pos hx, ih]

/-- C10: the incoming-SMS scan is only total when every `+CMT:` header it
reaches is followed by a body line with nonempty stripped text: when a
parseable `+CMT:` header (reached after non-CMT lines) is the last line,
`lines[n+1]` raises `IndexError`, and when the following body line strips to
the empty string, `ord(text[0])` raises `IndexError`. -/
theorem parse_incoming_sms_index_error (pre : List Str) (l sender ts : Str)
    (mp : Multipart) (q : List Msg)
    (hpre : ∀ x ∈ pre, x.take 5 ≠ str "+CMT:")
    (hm : cmtMatch l = some (sender, ts)) :
    parse_incoming_sms mp q (pre ++ [l]) = .error .indexError ∧
    (∀ body, strip body = [] →
      parse_incoming_sms mp q (pre ++ [l, body]) = .error .indexError) := by
  have h5 : l.take 5 = str "+CMT:" := cmtMatch_take5 hm
  constructor
  · apply parse_error_prepend pre [l] hpre
    simp [parse_incoming_sms, h5, hm]
  · intro body hb
    apply parse_error_prepend pre [l, body] hpre
    simp [parse_incoming_sms, h5, hm, hb]

/-- C10 witness: the `IndexError` cases at a concrete parseable header with
no following line, and with a whitespace-only body line. -/
theorem parse_incoming_sms_index_error_witness :
    parse_incoming_sms [] [] [str "+CMT: \"s\",,\"t\""] =
      .error .indexError ∧
    parse_incoming_sms [] [] [str "+CMT: \"s\",,\"t\"", str "  "] =
      .error .indexError :=
  ⟨(parse_incoming_sms_index_error [] (str "+CMT: \"s\",,\"t\"") (str "s")
      (str "t") [] [] (by simp) (by decide)).1,
   (parse_incoming_sms_index_error [] (str "+CMT: \"s\",,\"t\"") (str "s")
      (str "t") [] [] (by simp) (by decide)).2 (str "  ") (by decide)⟩

/-- Looking up a just-assigned key returns the assigned value. -/
theorem mpLookup_mpInsert_self (mp : Multipart) (k : Str) (v : List Str) :
    mpLookup (mpInsert mp k v) k = some v := by
  induction mp with
  | nil => simp [mpInsert, mpLookup]
  | cons p rest ih =>
    obtain ⟨k', v'⟩ := p
    by_cases h : k' = k
    · simp [mpInsert, h, mpLookup]
    · simp [mpInsert, h, mpLookup, ih]

/-- Looking up a just-deleted key returns nothing. -/
theorem mpLookup_mpErase_self (mp : Multipart) (k : Str) :
    mpLookup (mpErase mp k) k = none := by
  induction mp with
  | nil => rfl
  | cons p rest ih =>
    obtain ⟨k', v'⟩ := p
    by_cases h : k' = k
    · simp [mpErase, h, ih]
    · simp [mpErase, h, mpLookup, ih]

/-- The encoding guess leaves text alone unless it looks like hex-encoded
UTF-16. -/
theorem decodeGuess_not_hex {t : Str} (h : hexLooking t = false) :
    decodeGuess t = t := by
  simp [decodeGuess, h]

/-- C4 (amended with the proviso the encoding guess forces): given two
`+CMT:` notifications from the same sender — F1 carrying the multipart
marker (byte 130 then `@`) with a non-173 byte at offset 5, then F2 with the
marker and 173 at offset 5 — starting with no pending fragments for that
sender, and whose concatenated payloads do not look like hex-encoded UTF-16:
after F1 alone no message is emitted and the sender's pending list holds
exactly F1's payload (the body from offset 7); after F2, exactly one
`IncomingMessage` is emitted whose text is payload(F1) ++ payload(F2), and
the pending-multipart entry for the sender is removed. -/
theorem multipart_reassembly
    (line1 line2 sender ts1 ts2 : Str) (c0 c0' c5 c5' : Char)
    (t1 t2 : Str) (f1 f2 : Str) (mp : Multipart) (q : List Msg)
    (hm1 : cmtMatch line1 = some (sender, ts1))
    (hm2 : cmtMatch line2 = some (sender, ts2))
    (h1s : strip f1 = f1) (h2s : strip f2 = f2)
    (h1c : f1 = c0 :: '@' :: t1) (h1m : c0.toNat = 130)
    (h15 : f1.get? 5 = some c5) (h1f : c5.toNat ≠ 173)
    (h2c : f2 = c0' :: '@' :: t2) (h2m : c0'.toNat = 130)
    (h25 : f2.get? 5 = some c5') (h2f : c5'.toNat = 173)
    (hmp : mpLookup mp sender = none)
    (hhex : hexLooking (f1.drop 7 ++ f2.drop 7) = false) :
    parse_incoming_sms mp q [line1, f1] =
      .ok ([], mpInsert mp sender [f1.drop 7], q) ∧
    mpLookup (mpInsert mp sender [f1.drop 7]) sender = some [f1.drop 7] ∧
    parse_incoming_sms (mpInsert mp sender [f1.drop 7]) q [line2, f2] =
      .ok ([],
        mpErase (mpInsert (mpInsert mp sender [f1.drop 7]) sender
          [f1.drop 7, f2.drop 7]) sender,
        q ++ [{ sender := sender, timeSent := parse_incoming_timestamp ts2,
                text := f1.drop 7 ++ f2.drop 7 }]) ∧
    mpLookup (mpErase (mpInsert (mpInsert mp sender [f1.drop 7]) sender
      [f1.drop 7, f2.drop 7]) sender) sender = none := by
  have h5a : line1.take 5 = str "+CMT:" := cmtMatch_take5 hm1
  have h5b : line2.take 5 = str "+CMT:" := cmtMatch_take5 hm2
  subst h1c h2c
  simp at h15 h25 hhex
  refine ⟨?_, mpLookup_mpInsert_self _ _ _, ?_, mpLookup_mpErase_self _ _⟩
  · simp [parse_incoming_sms, h5a, hm1, h1s, h1m, hmp, h15, h1f]
  · simp [parse_incoming_sms, h5b, hm2, h2s, h2m,
      mpLookup_mpInsert_self, h25, h2f, add_incoming,
      decodeGuess_not_hex hhex]

/-- C4 witness: the reassembly applied to a concrete two-fragment exchange
with payloads `ab` and `cd`. -/
theorem multipart_reassembly_witness :
    parse_incoming_sms [] [] [str "+CMT: \"s\",,\"t\"",
        Char.ofNat 130 :: '@' :: str "xxxxxab"] =
      .ok ([], [(str "s", [str "ab"])], []) ∧
    mpLookup [(str "s", [str "ab"])] (str "s") = some [str "ab"] ∧
    parse_incoming_sms [(str "s", [str "ab"])] []
        [str "+CMT: \"s\",,\"t\"",
          Char.ofNat 130 :: '@' :: (str "xxx" ++ Char.ofNat 173 :: str "xcd")] =
      .ok ([], [],
        [{ sender := str "s",
           timeSent := parse_incoming_timestamp (str "t"),
           text := str "ab" ++ str "cd" }]) ∧
    mpLookup ([] : Multipart) (str "s") = none :=
  multipart_reassembly (str "+CMT: \"s\",,\"t\"") (str "+CMT: \"s\",,\"t\"")
    (str "s") (str "t") (str "t") (Char.ofNat 130) (Char.ofNat 130) 'x'
    (Char.ofNat 173) (str "xxxxxab") (str "xxx" ++ Char.ofNat 173 :: str "xcd")
    (Char.ofNat 130 :: '@' :: str "xxxxxab")
    (Char.ofNat 130 :: '@' :: (str "xxx" ++ Char.ofNat 173 :: str "xcd"))
    [] [] (by decide) (by decide) (by decide) (by decide) rfl (by decide)
    (by decide) (by decide) rfl (by decide) (by decide) (by decide) rfl
    (by decide)

/-- The last element of a list ending in a singleton. -/
theorem getLast_append_single {α : Type} (b : List α) (a : α) :
    (b ++ [a]).getLast? = some a := by
  simp

/-- Structure of a successful `_wait`: the returned buffer is the
accumulator followed by some non-terminal lines and the final `OK`, and
every non-terminal line is the strip of one of the device's lines. -/
theorem waitAux_ok :
    ∀ (ls : List Str) (acc buf : List Str), waitAux acc ls = .ok buf →
      ∃ b, buf = acc ++ (b ++ [str "OK"]) ∧
        ∀ x ∈ b, nonTerminal x ∧ ∃ l ∈ ls, x = strip l
  | [], acc, buf, h => by simp [waitAux] at h
  | l :: rest, acc, buf, h => by
    simp only [waitAux] at h
    split at h
    next hOK =>
      refine ⟨[], ?_, by simp⟩
      have hb := Except.ok.inj h
      rw [← hb, hOK]
      simp
    next hOK =>
      split at h
      next ty code hcm => simp at h
      next hcm =>
        split at h
        next hE => simp at h
        next hE =>
          split at h
          next hC => simp at h
          next hC =>
            obtain ⟨b, hb, hmem⟩ := waitAux_ok rest (acc ++ [strip l]) buf h
            refine ⟨strip l :: b, ?_, ?_⟩
            · rw [hb]
              simp
            · intro x hx
              rcases List.mem_cons.1 hx with hx1 | hx1
              · subst hx1
                exact ⟨⟨hOK, hcm, hE, hC⟩, l, List.mem_cons_self l rest, rfl⟩
              · obtain ⟨hnt, l', hl', hstrip⟩ := hmem x hx1
                exact ⟨hnt, l', List.mem_cons_of_mem l hl', hstrip⟩

/-- The scan is the identity on line lists with no `+CMT:` line. -/
theorem parse_no_cmt {mp : Multipart} {q : List Msg} :
    ∀ (L : List Str), (∀ x ∈ L, x.take 5 ≠ str "+CMT:") →
      parse_incoming_sms mp q L = .ok (L, mp, q)
  | [], _ => rfl
  | x :: L, h => by
    have hx : x.take 5 ≠ str "+CMT:" := h x (by simp)
    have ih := @parse_no_cmt mp q L (fun y hy => h y (by simp [hy]))
    simp only [parse_incoming_sms]
    rw [if_pos hx, ih]

/-- C1 (amended as the counterexample forces): on success, the lines
returned by `command` *do* include the terminal `OK` — it is the last
returned line (when the issued command string is not itself `OK`, which
would collide with the echo-suppression) — while an `ERROR` terminator is
never among the returned lines, because it raises instead.  Stated for a
single exchange whose response contains no incoming-SMS notification. -/
theorem command_success_keeps_ok (cmd : Str) (mr : Nat) (ls : List Str)
    (mp : Multipart) (q : List Msg) (r : List Str) (mp' : Multipart)
    (q' : List Msg) (hcmd : cmd ≠ str "OK")
    (hls : ∀ l ∈ ls, (strip l).take 5 ≠ str "+CMT:")
    (h : command cmd true mr [ls] mp q = .ok (some r, mp', q')) :
    r.getLast? = some (str "OK") ∧ str "ERROR" ∉ r := by
  cases mr with
  | zero => simp [command, cmdLoop] at h
  | succ m =>
    cases hw : waitLines ls with
    | error e =>
      exfalso
      have hnil : waitLines ([] : List Str) = .error (.readTimeout []) := rfl
      by_cases h515 : errCode e = some 515
      · cases m with
        | zero => simp [command, cmdLoop, hw, h515] at h
        | succ m' =>
          have herr : errCode (.readTimeout []) = none := rfl
          have hloop : cmdLoop true [ls] 0 (m' + 1 + 1) =
              .raised (.readTimeout []) 2 := by
            simp [cmdLoop, hw, h515, hnil, herr]
          simp [command, hloop] at h
      · simp [command, cmdLoop, hw, h515] at h
    | ok buf =>
      obtain ⟨b, hbuf, hmem⟩ := waitAux_ok ls [] buf hw
      rw [List.nil_append] at hbuf
      subst hbuf
      have hexists : ∃ b1, (∀ y ∈ b1, y ∈ b) ∧
          (if (b ++ [str "OK"]).head? = some cmd
           then (b ++ [str "OK"]).tail else b ++ [str "OK"]) =
            b1 ++ [str "OK"] := by
        cases b with
        | nil =>
          refine ⟨[], by simp, ?_⟩
          have hne : ¬ ((([] : List Str) ++ [str "OK"]).head? = some cmd) := by
            simp only [List.nil_append, List.head?_cons, Option.some.injEq]
            exact fun hEq => hcmd hEq.symm
          rw [if_neg hne]
        | cons x b' =>
          by_cases hx : x = cmd
          · refine ⟨b', fun y hy => List.mem_cons_of_mem x hy, ?_⟩
            rw [if_pos (by simp [hx])]
            simp
          · refine ⟨x :: b', fun y hy => hy, ?_⟩
            rw [if_neg (by simp [hx])]
      obtain ⟨b1, hb1sub, hline1⟩ := hexists
      have hfilter : ((b1 ++ [str "OK"]).filter keepLine) =
          b1.filter keepLine ++ [str "OK"] := by
        rw [List.filter_append]
        have hOKkeep : List.filter keepLine [str "OK"] = [str "OK"] := by
          decide
        rw [hOKkeep]
      have hnocmt : ∀ y ∈ b1.filter keepLine ++ [str "OK"],
          y.take 5 ≠ str "+CMT:" := by
        intro y hy
        rcases List.mem_append.1 hy with h1 | h1
        · obtain ⟨-, l, hl, rfl⟩ := hmem y (hb1sub y (List.mem_of_mem_filter h1))
          exact hls l hl
        · rcases List.mem_singleton.1 h1 with rfl
          decide
      have hparse := @parse_no_cmt mp q _ hnocmt
      have hcl : cmdLoop true [ls] 0 (m + 1) = .got (b ++ [str "OK"]) 1 := by
        simp [cmdLoop, hw]
      have hcommand : command cmd true (m + 1) [ls] mp q =
          .ok (some (b1.filter keepLine ++ [str "OK"]), mp, q) := by
        simp only [command, hcl, hline1, hfilter, hparse]
      rw [hcommand] at h
      simp only [Except.ok.injEq, Prod.mk.injEq, Option.some.injEq] at h
      obtain ⟨hr, -, -⟩ := h
      rw [← hr]
      constructor
      · exact getLast_append_single _ _
      · intro hErr
        rcases List.mem_append.1 hErr with h1 | h1
        · obtain ⟨hnt, -, -, -⟩ :=
            hmem _ (hb1sub _ (List.mem_of_mem_filter h1))
          exact hnt.2.2.1 rfl
        · rcases List.mem_singleton.1 h1 with hEq
          exact absurd hEq (by decide)

/-- C1 witness: the amended statement applied to a concrete exchange
(`AT+CSQ`, device answers one data line then `OK`). -/
theorem command_success_keeps_ok_witness :
    ([str "+CSQ: 1,0", str "OK"] : List Str).getLast? = some (str "OK") ∧
    str "ERROR" ∉ [str "+CSQ: 1,0", str "OK"] :=
  command_success_keeps_ok (str "AT+CSQ") 10 [str "+CSQ: 1,0", str "OK"]
    [] [] [str "+CSQ: 1,0", str "OK"] [] [] (by decide) (by decide)
    (by decide)

end PyGsm
